import Mathlib

/-!
Verification of the document access-control, version-history and
content-serialization subsystem of the `writer` collaborative editor backend
(`packages/backend/convex/{documents,versions,collaborators,exports}.ts`).

The Convex database is embedded shallowly: each table is a list of records,
`ctx.db.get`/indexed `.unique()` queries become `List.find?`, `.collect` over an
index becomes `List.filter`, `patch` becomes a field-preserving `List.map`,
`insert` an append with a caller-supplied fresh id, and `Date.now()` an explicit
`now : Nat` parameter.  A handler that may `throw` is a function into
`Except Err _`; the thrown `Error` / `ConvexError` payloads are collapsed into
the `Err` taxonomy (Unauthorized / NotFound / Forbidden / Validation).
-/

namespace Writer

/-- Collaborator role, `viewer < editor < owner`
(`roleValidator` in `collaborators.ts`). -/
inductive Role where
  | viewer
  | editor
  | owner
deriving DecidableEq, Repr

/-- The ad hoc numeric role lookup table
(`roleHierarchy = { viewer: 0, editor: 1, owner: 2 }` in `documents.ts`). -/
def roleHierarchy : Role → Nat
  | .viewer => 0
  | .editor => 1
  | .owner => 2

/-- A row of the `documents` table (see `schema.ts` fields used by
`documents.ts`).  `id` stands for the Convex `_id`. -/
structure Document where
  id : Nat
  title : String
  content : String
  ownerId : String
  createdAt : Nat
  updatedAt : Nat
  isDeleted : Bool
  parentFolderId : Option Nat
deriving DecidableEq, Repr

/-- A row of the `documentCollaborators` table. -/
structure Collaborator where
  id : Nat
  documentId : Nat
  userId : String
  role : Role
  addedAt : Nat
deriving DecidableEq, Repr

/-- A row of the `documentVersions` table. -/
structure Version where
  id : Nat
  documentId : Nat
  content : String
  title : String
  createdAt : Nat
  createdBy : String
deriving DecidableEq, Repr

/-- The database state visible to the claims: the three tables the
subsystem reads and writes. -/
structure DB where
  documents : List Document
  collaborators : List Collaborator
  versions : List Version
deriving DecidableEq, Repr

/-- Error taxonomy: the `Error` / `ConvexError` payloads thrown by the
handlers, collapsed to their code.  `noAccess` and `roleRequired` are the two
Forbidden-class "Access denied" throws of `checkDocumentAccess`;
`selfTransfer` is the `VALIDATION_ERROR` of `transferOwnership`. -/
inductive Err where
  | unauthorized
  | notFound
  | versionNotFound
  | noAccess
  | roleRequired (r : Role)
  | editorRequired
  | onlyOwnerTransfer
  | selfTransfer
deriving DecidableEq, Repr

deriving instance DecidableEq for Except

/-- `ctx.db.get("documents", documentId)`. -/
def DB.getDoc (db : DB) (documentId : Nat) : Option Document :=
  db.documents.find? (fun d => d.id == documentId)

/-- The `.withIndex("by_document_user", ...).unique()` lookup on
`documentCollaborators` (first match; the index enforces at most one). -/
def DB.getCollab (db : DB) (documentId : Nat) (userId : String) : Option Collaborator :=
  db.collaborators.find? (fun c => c.documentId == documentId && c.userId == userId)

/-- `ctx.db.get("documentVersions", versionId)`. -/
def DB.getVersion (db : DB) (versionId : Nat) : Option Version :=
  db.versions.find? (fun w => w.id == versionId)

/-- `checkDocumentAccess` of `documents.ts` (lines 15-39): absent or
soft-deleted document throws NotFound; the owner passes with role `owner`;
otherwise the collaborator grant is looked up, a missing grant throws
"Access denied: You don't have access", and a grant whose numeric rank is
below `requiredRole`'s throws "Access denied: `requiredRole` role required". -/
def checkDocumentAccess (db : DB) (documentId : Nat) (userId : String)
    (requiredRole : Role := .viewer) : Except Err (Document × Role) :=
  match db.getDoc documentId with
  | none => .error .notFound
  | some document =>
    if document.isDeleted then .error .notFound
    else if document.ownerId == userId then .ok (document, .owner)
    else
      match db.getCollab documentId userId with
      | none => .error .noAccess
      | some collaborator =>
        if roleHierarchy collaborator.role < roleHierarchy requiredRole then
          .error (.roleRequired requiredRole)
        else .ok (document, collaborator.role)

/-- The resolved role of §4.1 `resolveAccess`: `owner` for the document's
owner, the grant's role for a collaborator, nothing for a missing or
soft-deleted document or a stranger. -/
def resolveRole (db : DB) (documentId : Nat) (userId : String) : Option Role :=
  match db.getDoc documentId with
  | none => none
  | some document =>
    if document.isDeleted then none
    else if document.ownerId == userId then some .owner
    else (db.getCollab documentId userId).map (·.role)

/-- `updateDocument` of `documents.ts` (lines 236-256): requires `editor`
via `checkDocumentAccess`, then patches title/content/parentFolderId when
given and bumps `updatedAt`. -/
def updateDocument (db : DB) (userId : String) (documentId : Nat)
    (title : Option String) (content : Option String)
    (parentFolderId : Option Nat) (now : Nat) : Except Err DB :=
  match checkDocumentAccess db documentId userId .editor with
  | .error e => .error e
  | .ok _ =>
    .ok { db with
      documents := db.documents.map (fun d =>
        if d.id == documentId then
          { d with
            updatedAt := now
            title := title.getD d.title
            content := content.getD d.content
            parentFolderId :=
              match parentFolderId with
              | some f => some f
              | none => d.parentFolderId }
        else d) }

/-- Stable insertion into a list sorted by the boolean comparator `le`;
together with `insSortBy` this models the ECMAScript stable
`Array.prototype.sort` used by the handlers. -/
def insertSorted (le : α → α → Bool) (x : α) : List α → List α
  | [] => [x]
  | y :: ys => if le x y then x :: y :: ys else y :: insertSorted le x ys

/-- Stable sort by the boolean comparator `le` (models `.sort((a, b) => ...)`
on a copied array). -/
def insSortBy (le : α → α → Bool) : List α → List α
  | [] => []
  | x :: xs => insertSorted le x (insSortBy le xs)

/-- The owned-documents folder filter of `listDocuments`
(`args.folderId === undefined || doc.parentFolderId === args.folderId`). -/
def folderMatches (folderId : Option Nat) (d : Document) : Bool :=
  match folderId with
  | none => true
  | some f => d.parentFolderId == some f

/-- `getDocument` of `documents.ts` (lines 84-121): null without identity,
null for an absent or soft-deleted document, null for a requester that is
neither owner nor collaborator, otherwise the document. -/
def getDocument (db : DB) (user : Option String) (documentId : Nat) :
    Option Document :=
  match user with
  | none => none
  | some userId =>
    match db.getDoc documentId with
    | none => none
    | some document =>
      if document.isDeleted then none
      else
        let isOwner := document.ownerId == userId
        let collaborator := db.getCollab documentId userId
        if !isOwner && collaborator.isNone then none
        else some document

/-- `listDocuments` of `documents.ts` (lines 123-173): owned documents
filtered by folder then by the deleted flag, shared documents resolved from
the collaborations, filtered by the deleted flag then by folder, concatenated
and sorted by `updatedAt` descending. -/
def listDocuments (db : DB) (user : Option String) (folderId : Option Nat)
    (includeDeleted : Bool) : List Document :=
  match user with
  | none => []
  | some userId =>
    let owned := db.documents.filter (fun d => d.ownerId == userId)
    let filteredOwned :=
      (owned.filter (fun d => folderMatches folderId d)).filter
        (fun d => includeDeleted || !d.isDeleted)
    let collaborations := db.collaborators.filter (fun c => c.userId == userId)
    let shared := collaborations.filterMap (fun c => db.getDoc c.documentId)
    let filteredShared :=
      ((shared.filter (fun d => includeDeleted || !d.isDeleted)).filter
        (fun d => folderMatches folderId d))
    insSortBy (fun a b => b.updatedAt ≤ a.updatedAt)
      (filteredOwned ++ filteredShared)

/-- `deleteDocument` of `documents.ts` (lines 276-291): requires `owner` via
`checkDocumentAccess`, then soft-deletes by patching `isDeleted := true` and
bumping `updatedAt`. -/
def deleteDocument (db : DB) (userId : String) (documentId : Nat) (now : Nat) :
    Except Err DB :=
  match checkDocumentAccess db documentId userId .owner with
  | .error e => .error e
  | .ok _ =>
    .ok { db with
      documents := db.documents.map (fun d =>
        if d.id == documentId then
          { d with isDeleted := true, updatedAt := now }
        else d) }

/-- The document record inserted by `duplicateDocument`: the source's
title suffixed " (Copy)", its content and folder, owned by the caller. -/
def copyOf (document : Document) (userId : String) (now newId : Nat) :
    Document :=
  { id := newId, title := document.title ++ " (Copy)",
    content := document.content, ownerId := userId, createdAt := now,
    updatedAt := now, isDeleted := false,
    parentFolderId := document.parentFolderId }

/-- `duplicateDocument` of `documents.ts` (lines 355-375): calls
`checkDocumentAccess` with its default `requiredRole` (`"viewer"`), then
inserts a copy of the source owned by the caller and returns its id. -/
def duplicateDocument (db : DB) (userId : String) (documentId : Nat)
    (now newId : Nat) : Except Err (DB × Nat) :=
  match checkDocumentAccess db documentId userId with
  | .error e => .error e
  | .ok (document, _) =>
    .ok ({ db with
           documents := db.documents ++ [copyOf document userId now newId] },
         newId)

/-- `getDeletedDocuments` of `documents.ts` (lines 402-427): the caller's own
soft-deleted documents, from the `by_owner_deleted` index, newest first. -/
def getDeletedDocuments (db : DB) (user : Option String) : List Document :=
  match user with
  | none => []
  | some userId =>
    insSortBy (fun a b => b.createdAt ≤ a.createdAt)
      (db.documents.filter (fun d => d.ownerId == userId && d.isDeleted))

/-- `MAX_VERSIONS` of `versions.ts`: retention cap per document. -/
def MAX_VERSIONS : Nat := 50

/-- `MIN_VERSION_INTERVAL` of `versions.ts`: 5 minutes in milliseconds. -/
def MIN_VERSION_INTERVAL : Nat := 5 * 60 * 1000

/-- The effect of one (successful) `createVersion` call (`versions.ts` lines
53-85) on the document's set of version rows: the snapshot is inserted, all
versions of the document are collected, and when the count exceeds
`MAX_VERSIONS` the surplus is deleted by id, oldest first, after sorting a
copy ascending by `createdAt`.  (The auth / access-check prologue aborts a
call before any write, so a failed call leaves the version set unchanged and
is dropped from the modelled sequence.) -/
def createVersionStep (versions : List Version) (v : Version) : List Version :=
  let all := versions ++ [v]
  if all.length > MAX_VERSIONS then
    let sorted := insSortBy (fun a b => a.createdAt ≤ b.createdAt) all
    let toDelete := sorted.take (all.length - MAX_VERSIONS)
    all.filter (fun w => !((toDelete.map (·.id)).contains w.id))
  else all

/-- `checkDocumentAccess` of `versions.ts` (lines 20-48): like the
`documents.ts` helper but with no minimum-role argument — any collaborator
grant passes; errors carry ConvexError codes NOT_FOUND / FORBIDDEN. -/
def versionsCheckDocumentAccess (db : DB) (documentId : Nat)
    (userId : String) : Except Err (Document × Role) :=
  match db.getDoc documentId with
  | none => .error .notFound
  | some document =>
    if document.isDeleted then .error .notFound
    else if document.ownerId == userId then .ok (document, .owner)
    else
      match db.getCollab documentId userId with
      | none => .error .noAccess
      | some collaborator => .ok (document, collaborator.role)

/-- `restoreVersion` of `versions.ts` (lines 211-261): NOT_FOUND for a
missing version; read access via `versionsCheckDocumentAccess`; a non-owner
must hold a non-viewer grant (else FORBIDDEN "Editor access required");
then a backup snapshot of the document's current content/title is inserted
(id `backupId`, timestamp `now`) and the document is patched to the chosen
version's content/title with `updatedAt := now`. -/
def restoreVersion (db : DB) (userId : String) (versionId : Nat)
    (now backupId : Nat) : Except Err DB :=
  match db.getVersion versionId with
  | none => .error .versionNotFound
  | some version =>
    match versionsCheckDocumentAccess db version.documentId userId with
    | .error e => .error e
    | .ok (document, _) =>
      let allowed :=
        if document.ownerId == userId then true
        else
          match db.getCollab version.documentId userId with
          | none => false
          | some collaborator => !(collaborator.role == Role.viewer)
      if allowed then
        .ok { db with
          versions := db.versions ++
            [{ id := backupId, documentId := version.documentId,
               content := document.content, title := document.title,
               createdAt := now, createdBy := userId }],
          documents := db.documents.map (fun d =>
            if d.id == version.documentId then
              { d with content := version.content, title := version.title,
                       updatedAt := now }
            else d) }
      else .error .editorRequired

/-- A finite sequence of `createVersion` calls on one document, starting from
version set `init`. -/
def runCreateVersions (init : List Version) (news : List Version) :
    List Version :=
  news.foldl createVersionStep init

/-- Fixture for C2: 51 snapshots with strictly increasing timestamps. -/
def wNews : List Version :=
  (List.range 51).map (fun i =>
    { id := i, documentId := 1, content := "c", title := "t",
      createdAt := i, createdBy := "alice" })

/-- Result of the `checkAccess` query of `collaborators.ts`. -/
inductive AccessResult where
  | denied
  | granted (role : Role) (isOwner : Bool)
deriving DecidableEq, Repr

/-- `checkAccess` of `collaborators.ts` (lines 304-350): no identity, absent
or soft-deleted document, or no relation → no access; the owner resolves to
role `owner` with `isOwner = true`; a collaborator to the grant's role with
`isOwner = false`. -/
def checkAccess (db : DB) (user : Option String) (documentId : Nat) :
    AccessResult :=
  match user with
  | none => .denied
  | some userId =>
    match db.getDoc documentId with
    | none => .denied
    | some document =>
      if document.isDeleted then .denied
      else if document.ownerId == userId then .granted .owner true
      else
        match db.getCollab documentId userId with
        | none => .denied
        | some collaborator => .granted collaborator.role false

/-- `transferOwnership` of `collaborators.ts` (lines 355-405): NotFound for
an absent document, Forbidden for a non-owner caller, ValidationError
("You are already the owner") for a self-transfer; otherwise the new owner's
existing grant (if any) is deleted by id, the old owner is inserted as an
`editor` collaborator (row id `grantId`), and the document's `ownerId` is
patched to the new owner with `updatedAt := now`. -/
def transferOwnership (db : DB) (userId : String) (documentId : Nat)
    (newOwnerId : String) (now grantId : Nat) : Except Err DB :=
  match db.getDoc documentId with
  | none => .error .notFound
  | some document =>
    if !(document.ownerId == userId) then .error .onlyOwnerTransfer
    else if newOwnerId == userId then .error .selfTransfer
    else
      let afterRemove :=
        match db.getCollab documentId newOwnerId with
        | none => db.collaborators
        | some existing => db.collaborators.filter (fun c => !(c.id == existing.id))
      .ok { db with
        collaborators := afterRemove ++
          [{ id := grantId, documentId := documentId, userId := userId,
             role := .editor, addedAt := now }],
        documents := db.documents.map (fun d =>
          if d.id == documentId then
            { d with ownerId := newOwnerId, updatedAt := now }
          else d) }

/-- Fixture: a live document owned by alice. -/
def exDoc : Document :=
  { id := 1, title := "T", content := "C", ownerId := "alice", createdAt := 0,
    updatedAt := 5, isDeleted := false, parentFolderId := none }

/-- Fixture: the same document soft-deleted. -/
def exDocDeleted : Document :=
  { exDoc with isDeleted := true }

/-- Fixture: alice's soft-deleted document shared with bob as viewer. -/
def exDBdel : DB :=
  { documents := [exDocDeleted],
    collaborators := [{ id := 2, documentId := 1, userId := "bob",
                        role := .viewer, addedAt := 0 }],
    versions := [] }

/-- Fixture: alice's live document, no collaborators. -/
def exDB5 : DB :=
  { documents := [exDoc], collaborators := [], versions := [] }

/-- Fixture: `exDB5` after `deleteDocument` at time 10. -/
def exDB5del : DB :=
  { documents := [{ exDoc with isDeleted := true, updatedAt := 10 }],
    collaborators := [], versions := [] }

/-- Fixture: alice's live document shared with bob as editor. -/
def exDB6 : DB :=
  { documents := [exDoc],
    collaborators := [{ id := 2, documentId := 1, userId := "bob",
                        role := .editor, addedAt := 0 }],
    versions := [] }

/-- A text mark (`marks` entry of a `TiptapNode` in `exports.ts`): a `type`
tag plus the only mark attribute the emitters read, `attrs?.href`. -/
structure MarkT where
  type : String
  attrsHref : Option String
deriving DecidableEq, Repr

/-- The `TiptapNode` interface of `exports.ts`: a `type` tag, optional
children (`content`), optional `text`, optional `marks`, and the three node
attributes the emitters read (`attrs?.level`, `attrs?.checked`,
`attrs?.language`); absent fields are `none` / `[]`. -/
inductive TiptapNode where
  | mk (type : String) (content : List TiptapNode) (text : Option String)
       (marks : List MarkT) (attrsLevel : Option Nat)
       (attrsChecked : Option Bool) (attrsLanguage : Option String)

/-- `Array.prototype.join(sep)`. -/
def joinSep (sep : String) : List String → String
  | [] => ""
  | [x] => x
  | x :: xs => x ++ sep ++ joinSep sep xs

/-- `"s".repeat(n)`. -/
def strRepeat (s : String) (n : Nat) : String :=
  String.join (List.replicate n s)

/-- One iteration of the mark `switch` of `nodeToMarkdown`'s `text` case:
bold / italic / strike / code / link wrap the accumulated text; an unknown
mark type leaves it unchanged. -/
def applyMarkMd (text : String) (mark : MarkT) : String :=
  if mark.type == "bold" then "**" ++ text ++ "**"
  else if mark.type == "italic" then "*" ++ text ++ "*"
  else if mark.type == "strike" then "~~" ++ text ++ "~~"
  else if mark.type == "code" then "`" ++ text ++ "`"
  else if mark.type == "link" then
    "[" ++ text ++ "](" ++ (mark.attrsHref.getD "") ++ ")"
  else text

mutual

/-- `nodeToMarkdown` of `exports.ts` (lines 25-116): recursive descent over
the node `type`, with the unknown-kind fallback concatenating children. -/
def nodeToMarkdown (n : TiptapNode) (depth : Nat := 0) : String :=
  match n with
  | .mk type content text marks attrsLevel attrsChecked attrsLanguage =>
    if type == "doc" then joinSep "\n\n" (nodesToMarkdown content 0)
    else if type == "paragraph" then joinSep "" (nodesToMarkdown content 0)
    else if type == "heading" then
      strRepeat "#" (attrsLevel.getD 1) ++ " " ++
        joinSep "" (nodesToMarkdown content 0)
    else if type == "bulletList" then
      joinSep "\n" (nodesToMarkdown content depth)
    else if type == "orderedList" then
      joinSep "\n" (orderedItemsToMarkdown content depth 0)
    else if type == "listItem" then
      strRepeat "  " depth ++ "- " ++ joinSep "" (nodesToMarkdown content 0)
    else if type == "taskList" then
      joinSep "\n" (nodesToMarkdown content depth)
    else if type == "taskItem" then
      strRepeat "  " depth ++ "- [" ++
        (if attrsChecked.getD false then "x" else " ") ++ "] " ++
        joinSep "" (nodesToMarkdown content 0)
    else if type == "codeBlock" then
      "```" ++ attrsLanguage.getD "" ++ "\n" ++
        joinSep "" (nodesToMarkdown content 0) ++ "\n```"
    else if type == "blockquote" then
      joinSep "\n"
        (((joinSep "" (nodesToMarkdown content 0)).splitOn "\n").map
          (fun line => "> " ++ line))
    else if type == "horizontalRule" then "---"
    else if type == "hardBreak" then "\n"
    else if type == "text" then marks.foldl applyMarkMd (text.getD "")
    else joinSep "" (nodesToMarkdown content 0)

/-- `content.map(n => nodeToMarkdown(n, depth))`. -/
def nodesToMarkdown (l : List TiptapNode) (depth : Nat) : List String :=
  match l with
  | [] => []
  | x :: xs => nodeToMarkdown x depth :: nodesToMarkdown xs depth

/-- The `orderedList` item map: each child's markdown has a leading `"- "`
replaced (anchored, first occurrence) by its 1-based index. -/
def orderedItemsToMarkdown (l : List TiptapNode) (depth i : Nat) :
    List String :=
  match l with
  | [] => []
  | x :: xs =>
    let content := nodeToMarkdown x depth
    (if content.startsWith "- " then
        toString (i + 1) ++ ". " ++ content.drop 2
      else content)
      :: orderedItemsToMarkdown xs depth (i + 1)

end

/-- `.replace(/c/g, rep)` for a single-character pattern: every occurrence
of the character is substituted. -/
def replaceChar (pat : Char) (rep : String) (s : String) : String :=
  String.join (s.toList.map (fun ch => if ch == pat then rep else String.mk [ch]))

/-- `escapeHTML` of `exports.ts` (lines 123-130): the five sequential global
single-character replacements `& < > \" \x27`, in source order. -/
def escapeHTML (text : String) : String :=
  replaceChar '\x27' "&#039;"
    (replaceChar '"' "&quot;"
      (replaceChar '>' "&gt;"
        (replaceChar '<' "&lt;"
          (replaceChar '&' "&amp;" text))))

/-- One iteration of the mark `switch` of `nodeToHTML`'s `text` case. -/
def applyMarkHtml (text : String) (mark : MarkT) : String :=
  if mark.type == "bold" then "<strong>" ++ text ++ "</strong>"
  else if mark.type == "italic" then "<em>" ++ text ++ "</em>"
  else if mark.type == "strike" then "<s>" ++ text ++ "</s>"
  else if mark.type == "code" then "<code>" ++ text ++ "</code>"
  else if mark.type == "underline" then "<u>" ++ text ++ "</u>"
  else if mark.type == "link" then
    "<a href=\"" ++ escapeHTML (mark.attrsHref.getD "") ++ "\">" ++
      text ++ "</a>"
  else text

mutual

/-- `nodeToHTML` of `exports.ts` (lines 132-211). -/
def nodeToHTML (n : TiptapNode) : String :=
  match n with
  | .mk type content text marks attrsLevel attrsChecked attrsLanguage =>
    if type == "doc" then joinSep "" (nodesToHTML content)
    else if type == "paragraph" then
      "<p>" ++ joinSep "" (nodesToHTML content) ++ "</p>"
    else if type == "heading" then
      "<h" ++ toString (attrsLevel.getD 1) ++ ">" ++
        joinSep "" (nodesToHTML content) ++
        "</h" ++ toString (attrsLevel.getD 1) ++ ">"
    else if type == "bulletList" then
      "<ul>" ++ joinSep "" (nodesToHTML content) ++ "</ul>"
    else if type == "orderedList" then
      "<ol>" ++ joinSep "" (nodesToHTML content) ++ "</ol>"
    else if type == "listItem" then
      "<li>" ++ joinSep "" (nodesToHTML content) ++ "</li>"
    else if type == "taskList" then
      "<ul class=\"task-list\">" ++ joinSep "" (nodesToHTML content) ++ "</ul>"
    else if type == "taskItem" then
      "<li><input type=\"checkbox\" " ++
        (if attrsChecked.getD false then "checked" else "") ++
        " disabled> " ++ joinSep "" (nodesToHTML content) ++ "</li>"
    else if type == "codeBlock" then
      "<pre><code class=\"language-" ++ attrsLanguage.getD "" ++ "\">" ++
        escapeHTML (joinSep "" (nodesToHTML content)) ++ "</code></pre>"
    else if type == "blockquote" then
      "<blockquote>" ++ joinSep "" (nodesToHTML content) ++ "</blockquote>"
    else if type == "horizontalRule" then "<hr>"
    else if type == "hardBreak" then "<br>"
    else if type == "text" then
      marks.foldl applyMarkHtml (escapeHTML (text.getD ""))
    else joinSep "" (nodesToHTML content)

/-- `content.map(n => nodeToHTML(n))`. -/
def nodesToHTML (l : List TiptapNode) : List String :=
  match l with
  | [] => []
  | x :: xs => nodeToHTML x :: nodesToHTML xs

end

mutual

/-- `nodeToText` of `exports.ts` (lines 244-284). -/
def nodeToText (n : TiptapNode) : String :=
  match n with
  | .mk type content text _marks _lvl _chk _lang =>
    if type == "doc" then joinSep "\n\n" (nodesToText content)
    else if type == "paragraph" then joinSep "" (nodesToText content)
    else if type == "heading" then joinSep "" (nodesToText content)
    else if type == "bulletList" || type == "orderedList" ||
        type == "taskList" then
      joinSep "\n" (nodesToText content)
    else if type == "listItem" || type == "taskItem" then
      "• " ++ joinSep "" (nodesToText content)
    else if type == "codeBlock" then joinSep "" (nodesToText content)
    else if type == "blockquote" then joinSep "" (nodesToText content)
    else if type == "horizontalRule" then "---"
    else if type == "hardBreak" then "\n"
    else if type == "text" then text.getD ""
    else joinSep "" (nodesToText content)

/-- `content.map(n => nodeToText(n))`. -/
def nodesToText (l : List TiptapNode) : List String :=
  match l with
  | [] => []
  | x :: xs => nodeToText x :: nodesToText xs

end

/-- The minimal styled document shell `tiptapToHTML` wraps the body in when
`includeStyles` is set. -/
def htmlDocumentShell (body : String) : String :=
  "<!DOCTYPE html>\n<html>\n<head>\n<meta charset=\"UTF-8\">\n<style>\nbody \x7b font-family: system-ui, -apple-system, sans-serif; line-height: 1.6; max-width: 800px; margin: 0 auto; padding: 20px; \x7d\nh1, h2, h3, h4, h5, h6 \x7b margin-top: 1.5em; margin-bottom: 0.5em; \x7d\np \x7b margin: 1em 0; \x7d\nul, ol \x7b padding-left: 2em; \x7d\nblockquote \x7b border-left: 3px solid #ccc; margin-left: 0; padding-left: 1em; color: #666; \x7d\ncode \x7b background: #f4f4f4; padding: 2px 6px; border-radius: 3px; \x7d\npre \x7b background: #f4f4f4; padding: 1em; border-radius: 5px; overflow-x: auto; \x7d\npre code \x7b background: none; padding: 0; \x7d\na \x7b color: #0066cc; \x7d\nhr \x7b border: none; border-top: 1px solid #ccc; margin: 2em 0; \x7d\n</style>\n</head>\n<body>\n" ++ body ++ "\n</body>\n</html>"

/-- The outcome of an export action as seen by its caller: a successful
`{title, content, format}` value, a structured ConvexError code+message
pair, or a raw JavaScript exception that escaped the handler. -/
inductive ExportOutcome where
  | ok (title content format : String)
  | convexError (code msg : String)
  | jsException (msg : String)
deriving DecidableEq, Repr

/-- `tiptapToMarkdown` of `exports.ts` (lines 118-121): `JSON.parse` the
content then emit markdown.  The parse step is the platform `JSON.parse`
builtin (not repository code) and is therefore a parameter; a parse failure
is a raw exception, modelled as `Except.error`. -/
def tiptapToMarkdownP (parse : String → Except String TiptapNode)
    (jsonContent : String) : Except String String :=
  (parse jsonContent).map (fun doc => nodeToMarkdown doc)

/-- `tiptapToHTML` of `exports.ts` (lines 213-242): parse, emit HTML, and
wrap in the styled shell when `includeStyles` is set. -/
def tiptapToHTMLP (parse : String → Except String TiptapNode)
    (jsonContent : String) (includeStyles : Bool) : Except String String :=
  (parse jsonContent).map (fun doc =>
    if includeStyles then htmlDocumentShell (nodeToHTML doc)
    else nodeToHTML doc)

/-- `tiptapToText` of `exports.ts` (lines 286-289). -/
def tiptapToTextP (parse : String → Except String TiptapNode)
    (jsonContent : String) : Except String String :=
  (parse jsonContent).map nodeToText

/-- `exportToMarkdown` of `exports.ts` (lines 291-318): a null document is
reported as a structured ConvexError NOT_FOUND; the content is then passed
to `tiptapToMarkdown` with no try/catch, so a parse exception escapes the
handler as a raw exception. -/
def exportToMarkdownRun (parse : String → Except String TiptapNode)
    (db : DB) (user : Option String) (documentId : Nat) : ExportOutcome :=
  match getDocument db user documentId with
  | none => .convexError "NOT_FOUND" "Document not found or access denied"
  | some document =>
    match tiptapToMarkdownP parse document.content with
    | .error e => .jsException e
    | .ok content => .ok document.title content "markdown"

/-- `exportToHTML` of `exports.ts` (lines 320-348); `includeStyles` defaults
to true. -/
def exportToHTMLRun (parse : String → Except String TiptapNode)
    (db : DB) (user : Option String) (documentId : Nat)
    (includeStyles : Option Bool) : ExportOutcome :=
  match getDocument db user documentId with
  | none => .convexError "NOT_FOUND" "Document not found or access denied"
  | some document =>
    match tiptapToHTMLP parse document.content (includeStyles.getD true) with
    | .error e => .jsException e
    | .ok content => .ok document.title content "html"

/-- `exportToText` of `exports.ts` (lines 350-377). -/
def exportToTextRun (parse : String → Except String TiptapNode)
    (db : DB) (user : Option String) (documentId : Nat) : ExportOutcome :=
  match getDocument db user documentId with
  | none => .convexError "NOT_FOUND" "Document not found or access denied"
  | some document =>
    match tiptapToTextP parse document.content with
    | .error e => .jsException e
    | .ok content => .ok document.title content "text"

/-- `exportToJSON` of `exports.ts` (lines 379-406): no parse at all — the
stored content string is returned unchanged. -/
def exportToJSONRun (db : DB) (user : Option String) (documentId : Nat) :
    ExportOutcome :=
  match getDocument db user documentId with
  | none => .convexError "NOT_FOUND" "Document not found or access denied"
  | some document => .ok document.title document.content "json"

/-- A JSON value, for the model of the platform `JSON.parse` builtin. -/
inductive Json where
  | null
  | bool (b : Bool)
  | num (n : Int)
  | str (s : String)
  | arr (elems : List Json)
  | obj (fields : List (String × Json))

/-- `Char.ofNat 123`, the opening curly bracket. -/
def lbrace : Char := Char.ofNat 123

/-- `Char.ofNat 125`, the closing curly bracket. -/
def rbrace : Char := Char.ofNat 125

/-- Skip JSON whitespace. -/
def skipWs : List Char → List Char
  | [] => []
  | c :: cs =>
    if c == ' ' || c == '\n' || c == '\t' || c == '\r' then skipWs cs
    else c :: cs

/-- Body of a JSON string literal after the opening quote (escape sequences
are outside the modelled subset). -/
def parseStrChars : List Char → Option (List Char × List Char)
  | [] => none
  | c :: cs =>
    if c == '"' then some ([], cs)
    else if c == '\\' then none
    else (parseStrChars cs).map (fun p => (c :: p.1, p.2))

/-- Longest leading run of decimal digits. -/
def takeDigits : List Char → List Char × List Char
  | [] => ([], [])
  | c :: cs =>
    if c.isDigit then
      let p := takeDigits cs
      (c :: p.1, p.2)
    else ([], c :: cs)

/-- Decimal digits to a natural number. -/
def digitsToNat (ds : List Char) : Nat :=
  ds.foldl (fun acc c => acc * 10 + (c.toNat - 48)) 0

/-- Fraction/exponent markers (outside the modelled integer subset). -/
def isFloatStart : List Char → Bool
  | [] => false
  | c :: _ => c == '.' || c == 'e' || c == 'E'

/-- A JSON integer literal. -/
def parseNum : List Char → Option (Json × List Char)
  | '-' :: rest =>
    let p := takeDigits rest
    if p.1.isEmpty || isFloatStart p.2 then none
    else some (.num (-(digitsToNat p.1 : Int)), p.2)
  | cs =>
    let p := takeDigits cs
    if p.1.isEmpty || isFloatStart p.2 then none
    else some (.num (digitsToNat p.1), p.2)

mutual

/-- One JSON value (fuelled recursive descent). -/
def parseVal : Nat → List Char → Option (Json × List Char)
  | 0, _ => none
  | fuel + 1, cs0 =>
    let cs := skipWs cs0
    if List.isPrefixOf "null".toList cs then some (.null, cs.drop 4)
    else if List.isPrefixOf "true".toList cs then some (.bool true, cs.drop 4)
    else if List.isPrefixOf "false".toList cs then
      some (.bool false, cs.drop 5)
    else
      match cs with
      | [] => none
      | c :: rest =>
        if c == '"' then
          (parseStrChars rest).map (fun p => (.str (String.mk p.1), p.2))
        else if c == '-' || c.isDigit then parseNum cs
        else if c == '[' then
          let r2 := skipWs rest
          if r2.head? == some ']' then some (.arr [], r2.drop 1)
          else (parseElems fuel r2).map (fun p => (.arr p.1, p.2))
        else if c == lbrace then
          let r2 := skipWs rest
          if r2.head? == some rbrace then some (.obj [], r2.drop 1)
          else (parseFields fuel r2).map (fun p => (.obj p.1, p.2))
        else none

/-- Comma-separated array elements up to the closing bracket. -/
def parseElems : Nat → List Char → Option (List Json × List Char)
  | 0, _ => none
  | fuel + 1, cs =>
    match parseVal fuel cs with
    | none => none
    | some (v, r1) =>
      match skipWs r1 with
      | ',' :: r2 => (parseElems fuel r2).map (fun p => (v :: p.1, p.2))
      | ']' :: r2 => some ([v], r2)
      | _ => none

/-- Comma-separated object members up to the closing bracket. -/
def parseFields : Nat → List Char → Option (List (String × Json) × List Char)
  | 0, _ => none
  | fuel + 1, cs =>
    match skipWs cs with
    | '"' :: rest =>
      match parseStrChars rest with
      | none => none
      | some (k, r1) =>
        match skipWs r1 with
        | ':' :: r2 =>
          match parseVal fuel r2 with
          | none => none
          | some (v, r3) =>
            match skipWs r3 with
            | ',' :: r4 =>
              (parseFields fuel r4).map (fun p =>
                ((String.mk k, v) :: p.1, p.2))
            | c :: r4 =>
              if c == rbrace then some ([(String.mk k, v)], r4) else none
            | [] => none
        | _ => none
    | _ => none

end

/-- Models the ECMAScript `JSON.parse` builtin — an external platform
function, not repository code — on the JSON subset the backend stores
(null / booleans / integers / escape-free strings / arrays / objects).  Any
input outside the grammar fails, as the builtin throws a SyntaxError. -/
def jsonParse (s : String) : Except String Json :=
  match parseVal (2 * s.length + 2) s.toList with
  | none => .error "SyntaxError: Unexpected token in JSON"
  | some (v, rest) =>
    if (skipWs rest).isEmpty then .ok v
    else .error "SyntaxError: Unexpected non-whitespace character after JSON"

/-- Field lookup in a parsed JSON object (`obj.field` access in JS). -/
def jfield (fields : List (String × Json)) (k : String) : Option Json :=
  (fields.find? (fun kv => kv.1 == k)).map (fun kv => kv.2)

/-- The duck-typed reading of one `marks` entry performed by the emitters
(the unchecked `as TiptapNode` cast means any JSON shape is accepted; absent
or mistyped fields read as undefined). -/
def jsonToMark (j : Json) : MarkT :=
  match j with
  | .obj fields =>
    { type :=
        match jfield fields "type" with
        | some (.str s) => s
        | _ => ""
      attrsHref :=
        match jfield fields "attrs" with
        | some (.obj afields) =>
          match jfield afields "href" with
          | some (.str s) => some s
          | _ => none
        | _ => none }
  | _ => { type := "", attrsHref := none }

mutual

/-- The duck-typed reading of a parsed JSON value as a `TiptapNode`
(the unchecked `as TiptapNode` cast): a non-object or an object with absent
or mistyped fields reads as a node with no matching `type`, no children, no
text, no marks and no attributes. -/
def jsonToNodeF : Nat → Json → TiptapNode
  | 0, _ => .mk "" [] none [] none none none
  | fuel + 1, j =>
    match j with
    | .obj fields =>
      .mk
        (match jfield fields "type" with
          | some (.str s) => s
          | _ => "")
        (match jfield fields "content" with
          | some (.arr l) => jsonToNodesF fuel l
          | _ => [])
        (match jfield fields "text" with
          | some (.str s) => some s
          | _ => none)
        (match jfield fields "marks" with
          | some (.arr l) => l.map jsonToMark
          | _ => [])
        (match jfield fields "attrs" with
          | some (.obj afields) =>
            match jfield afields "level" with
            | some (.num n) => some n.toNat
            | _ => none
          | _ => none)
        (match jfield fields "attrs" with
          | some (.obj afields) =>
            match jfield afields "checked" with
            | some (.bool b) => some b
            | _ => none
          | _ => none)
        (match jfield fields "attrs" with
          | some (.obj afields) =>
            match jfield afields "language" with
            | some (.str s) => some s
            | _ => none
          | _ => none)
    | _ => .mk "" [] none [] none none none

/-- Children of a node, read recursively. -/
def jsonToNodesF : Nat → List Json → List TiptapNode
  | _, [] => []
  | 0, _ :: _ => []
  | fuel + 1, x :: xs => jsonToNodeF fuel x :: jsonToNodesF (fuel + 1) xs

end

/-- The composite `JSON.parse(content) as TiptapNode` step of the three
parsing exporters, instantiating the `parse` parameter with the platform
model. -/
def parseTiptap (s : String) : Except String TiptapNode :=
  (jsonParse s).map (fun j => jsonToNodeF (s.length + 1) j)

/-- Fixture for C3: alice's document whose stored content is not JSON. -/
def exDB3 : DB :=
  { documents := [{ exDoc with content := "not json" }],
    collaborators := [], versions := [] }

/-- Fixture for C9: the tree
`{doc:[{paragraph:[{text:"hi", marks:[bold]}]}]}`. -/
def boldHiTree : TiptapNode :=
  .mk "doc"
    [.mk "paragraph"
      [.mk "text" [] (some "hi") [{ type := "bold", attrsHref := none }]
        none none none]
      none [] none none none]
    none [] none none none

/-- Fixture: the database produced by transferring the soft-deleted document
of `exDBdel` from alice to bob at time 9 with grant id 5. -/
def exDB8cx : DB :=
  { documents := [{ exDocDeleted with ownerId := "bob", updatedAt := 9 }],
    collaborators := [{ id := 5, documentId := 1, userId := "alice",
                        role := .editor, addedAt := 9 }],
    versions := [] }

/-- Fixture: an old snapshot of alice's document. -/
def exVer : Version :=
  { id := 10, documentId := 1, content := "oldC", title := "oldT",
    createdAt := 2, createdBy := "alice" }

/-- Fixture: `exDB6` with the old snapshot in the version history. -/
def exDB7 : DB :=
  { exDB6 with versions := [exVer] }

end Writer

namespace Writer

theorem mem_insertSorted {le : α → α → Bool} {x a : α} {l : List α} :
    a ∈ insertSorted le x l ↔ a = x ∨ a ∈ l := by
  induction l with
  | nil => simp [insertSorted]
  | cons y ys ih =>
    by_cases h : le x y
    · simp [insertSorted, h]
    · simp only [insertSorted, if_neg h, List.mem_cons, ih]
      tauto

theorem mem_insSortBy {le : α → α → Bool} {a : α} {l : List α} :
    a ∈ insSortBy le l ↔ a ∈ l := by
  induction l with
  | nil => simp [insSortBy]
  | cons x xs ih => simp [insSortBy, mem_insertSorted, ih]

/-- Patching a document table by id commutes with the id lookup, as long as
the patch keeps the id. -/
theorem find?_map_patch (l : List Document) (k : Nat) (g : Document → Document)
    (hg : ∀ d, (g d).id = d.id) :
    (l.map (fun d => if d.id == k then g d else d)).find?
        (fun d => d.id == k)
      = (l.find? (fun d => d.id == k)).map g := by
  induction l with
  | nil => rfl
  | cons d l ih =>
    rw [List.map_cons]
    by_cases h : d.id = k
    · have hdid : (d.id == k) = true := by simpa using h
      have hgid : ((g d).id == k) = true := by rw [hg]; exact hdid
      rw [if_pos hdid, List.find?_cons, List.find?_cons, hgid, hdid,
        Option.map_some']
    · have hdid : (d.id == k) = false := by simpa using h
      rw [if_neg (by simp [h]), List.find?_cons, List.find?_cons, hdid, ih]

theorem check_ok_of_resolve {db : DB} {documentId : Nat} {userId : String}
    {r1 : Role} (r2 : Role)
    (hres : resolveRole db documentId userId = some r1)
    (hge : roleHierarchy r2 ≤ roleHierarchy r1) :
    ∃ d, db.getDoc documentId = some d ∧
      checkDocumentAccess db documentId userId r2 = .ok (d, r1) := by
  unfold resolveRole at hres
  unfold checkDocumentAccess
  cases hdoc : db.getDoc documentId with
  | none => simp [hdoc] at hres
  | some document =>
    simp only [hdoc] at hres ⊢
    by_cases hdel : document.isDeleted
    · simp [hdel] at hres
    · simp only [hdel, if_false] at hres ⊢
      by_cases hown : document.ownerId == userId
      · simp only [hown, if_true] at hres ⊢
        injection hres with hres
        subst hres
        exact ⟨document, rfl, rfl⟩
      · simp only [hown, if_false] at hres ⊢
        cases hcol : db.getCollab documentId userId with
        | none => simp [hcol] at hres
        | some collaborator =>
          simp only [hcol, Option.map_some'] at hres ⊢
          injection hres with hres
          subst hres
          simp only [Nat.not_lt.mpr hge, if_false]
          exact ⟨document, rfl, rfl⟩

theorem check_err_of_resolve_none {db : DB} {documentId : Nat}
    {userId : String} (r2 : Role)
    (hres : resolveRole db documentId userId = none) :
    checkDocumentAccess db documentId userId r2 = .error .notFound ∨
    checkDocumentAccess db documentId userId r2 = .error .noAccess := by
  unfold resolveRole at hres
  unfold checkDocumentAccess
  cases hdoc : db.getDoc documentId with
  | none => simp [hdoc]
  | some document =>
    simp only [hdoc] at hres ⊢
    by_cases hdel : document.isDeleted
    · simp [hdel]
    · simp only [hdel, if_false] at hres ⊢
      by_cases hown : document.ownerId == userId
      · simp [hown] at hres
      · simp only [hown, if_false] at hres ⊢
        cases hcol : db.getCollab documentId userId with
        | none => simp
        | some collaborator => simp [hcol] at hres

/-- C1: for every document, user and operation with minimum role `r2`, when
the resolved role is `r1 < r2` the access check fails Forbidden
(`roleRequired r2`), and when `r1 ≥ r2` the check succeeds returning the
document with role `r1`; in particular `updateDocument` (minimum `editor`)
then proceeds to patch, and is rejected below `editor`. -/
theorem checkDocumentAccess_role_gate (db : DB) (documentId : Nat)
    (userId : String) (r1 r2 : Role)
    (hres : resolveRole db documentId userId = some r1) :
    (roleHierarchy r1 < roleHierarchy r2 →
      checkDocumentAccess db documentId userId r2 = .error (.roleRequired r2)) ∧
    (roleHierarchy r2 ≤ roleHierarchy r1 →
      ∃ d, checkDocumentAccess db documentId userId r2 = .ok (d, r1)) ∧
    (∀ t c f now,
      roleHierarchy .editor ≤ roleHierarchy r1 →
        ∃ db2, updateDocument db userId documentId t c f now = .ok db2) ∧
    (∀ t c f now,
      roleHierarchy r1 < roleHierarchy .editor →
        updateDocument db userId documentId t c f now =
          .error (.roleRequired .editor)) := by
  unfold resolveRole at hres
  unfold checkDocumentAccess updateDocument checkDocumentAccess
  cases hdoc : db.getDoc documentId with
  | none => simp [hdoc] at hres
  | some document =>
    simp only [hdoc] at hres ⊢
    by_cases hdel : document.isDeleted
    · simp [hdel] at hres
    · simp only [hdel, if_false] at hres ⊢
      by_cases hown : document.ownerId == userId
      · simp only [hown, if_true] at hres ⊢
        injection hres with hres
        subst hres
        refine ⟨fun hlt => ?_, fun _ => ⟨document, rfl⟩,
          fun t c f now _ => ⟨_, rfl⟩, fun t c f now hlt => ?_⟩
        · cases r2 <;> simp [roleHierarchy] at hlt
        · exact absurd hlt (by decide)
      · simp only [hown, if_false] at hres ⊢
        cases hcol : db.getCollab documentId userId with
        | none => simp [hcol] at hres
        | some collaborator =>
          simp only [hcol, Option.map_some'] at hres ⊢
          injection hres with hres
          subst hres
          refine ⟨fun hlt => ?_, fun hge => ?_, fun t c f now hge => ?_,
            fun t c f now hlt => ?_⟩
          · simp [hlt]
          · simp [Nat.not_lt.mpr hge]
          · simp only [Nat.not_lt.mpr hge, if_false]
            exact ⟨_, rfl⟩
          · simp [hlt]

/-- Witness for C1 at a concrete database: a `viewer` collaborator is
rejected from an `editor`-gated operation and admitted to a `viewer`-gated
one. -/
theorem checkDocumentAccess_role_gate_witness :
    resolveRole
        { documents := [{ id := 1, title := "t", content := "c",
                          ownerId := "alice", createdAt := 0, updatedAt := 0,
                          isDeleted := false, parentFolderId := none }],
          collaborators := [{ id := 7, documentId := 1, userId := "bob",
                              role := .viewer, addedAt := 0 }],
          versions := [] } 1 "bob" = some .viewer ∧
    (roleHierarchy .viewer < roleHierarchy .editor →
      checkDocumentAccess
        { documents := [{ id := 1, title := "t", content := "c",
                          ownerId := "alice", createdAt := 0, updatedAt := 0,
                          isDeleted := false, parentFolderId := none }],
          collaborators := [{ id := 7, documentId := 1, userId := "bob",
                              role := .viewer, addedAt := 0 }],
          versions := [] } 1 "bob" .editor = .error (.roleRequired .editor)) :=
  ⟨by decide,
   (checkDocumentAccess_role_gate _ 1 "bob" .viewer .editor (by decide)).1⟩

/-- C4 counterexample: bob, a viewer collaborator on alice's soft-deleted
document, gets `null` from `getDocument`, but the document DOES appear in his
`listDocuments` result when `includeDeleted` is true — so the claim's "for
every combination of query arguments such as includeDeleted, the document
does not appear in listDocuments" is false. -/
theorem listDocuments_exposes_deleted_shared_cx :
    getDocument exDBdel (some "bob") 1 = none ∧
    exDocDeleted ∈ listDocuments exDBdel (some "bob") none true := by
  decide

/-- C4 as amended: for a soft-deleted document and a non-owner requester,
`getDocument` returns null, and the document does not appear in
`listDocuments` as long as `includeDeleted` is not set; with
`includeDeleted = true` a collaborator does see it. -/
theorem deleted_doc_hidden_from_non_owners (db : DB) (d : Document)
    (documentId : Nat) (w : String) (fid : Option Nat)
    (hdoc : db.getDoc documentId = some d) (hdel : d.isDeleted = true)
    (_hown : d.ownerId ≠ w) :
    getDocument db (some w) documentId = none ∧
    d ∉ listDocuments db (some w) fid false := by
  refine ⟨by simp [getDocument, hdoc, hdel], fun hmem => ?_⟩
  unfold listDocuments at hmem
  rw [mem_insSortBy, List.mem_append] at hmem
  rcases hmem with hmem | hmem
  · have hcond := (List.mem_filter.mp hmem).2
    simp [hdel] at hcond
  · have hcond := (List.mem_filter.mp (List.mem_filter.mp hmem).1).2
    simp [hdel] at hcond

/-- Witness for the amended C4 at a concrete database. -/
theorem deleted_doc_hidden_from_non_owners_witness :
    getDocument exDBdel (some "bob") 1 = none ∧
    exDocDeleted ∉ listDocuments exDBdel (some "bob") none false :=
  deleted_doc_hidden_from_non_owners exDBdel exDocDeleted 1 "bob" none
    (by decide) (by decide) (by decide)

/-- C5 counterexample: alice soft-deletes her document; the second
`deleteDocument` call does not succeed as a no-op — it fails with NotFound,
because `checkDocumentAccess` treats a soft-deleted document as absent. -/
theorem deleteDocument_second_call_fails_cx :
    deleteDocument exDB5 "alice" 1 10 = .ok exDB5del ∧
    deleteDocument exDB5del "alice" 1 20 = .error .notFound := by
  decide

/-- C5 as amended: after any successful `deleteDocument`, repeating the call
always fails with NotFound (and, the handler throwing before any write, the
retry leaves the database unchanged); repeated soft-delete is safe to retry
but is not a successful no-op. -/
theorem deleteDocument_retry_fails_notFound (db : DB) (u : String)
    (documentId now now' : Nat) (db' : DB)
    (h : deleteDocument db u documentId now = .ok db') :
    deleteDocument db' u documentId now' = .error .notFound := by
  unfold deleteDocument at h ⊢
  cases hchk : checkDocumentAccess db documentId u .owner with
  | error e => simp [hchk] at h
  | ok pr =>
    simp only [hchk] at h
    injection h with h
    subst h
    have hfind :
        DB.getDoc
            { db with
              documents := db.documents.map (fun d =>
                if d.id == documentId then
                  { d with isDeleted := true, updatedAt := now }
                else d) }
            documentId
          = (db.getDoc documentId).map
              (fun d => { d with isDeleted := true, updatedAt := now }) := by
      simpa [DB.getDoc] using
        find?_map_patch db.documents documentId
          (fun d => { d with isDeleted := true, updatedAt := now })
          (fun d => rfl)
    unfold checkDocumentAccess at hchk ⊢
    cases hdoc : db.getDoc documentId with
    | none => simp [hdoc] at hchk
    | some document =>
      rw [hfind, hdoc, Option.map_some']
      simp

/-- Witness for the amended C5 at a concrete database. -/
theorem deleteDocument_retry_fails_notFound_witness :
    deleteDocument exDB5del "alice" 1 20 = .error .notFound :=
  deleteDocument_retry_fails_notFound exDB5 "alice" 1 10 20 exDB5del
    (by decide)

/-- C6 counterexample: bob holds only an `editor` grant on alice's document,
yet `duplicateDocument` succeeds and inserts a copy owned by bob — the claim
that it fails with Forbidden for any resolved role below owner is false. -/
theorem duplicateDocument_editor_succeeds_cx :
    duplicateDocument exDB6 "bob" 1 7 99 =
      .ok ({ exDB6 with
             documents := exDB6.documents ++ [copyOf exDoc "bob" 7 99] },
           99) := by
  decide

/-- C6 as amended: `duplicateDocument` calls the access check with its
default minimum role `viewer`, so it succeeds for the owner and for every
collaborator regardless of role, inserting a copy owned by the caller, and
fails only when the caller has no resolved role on the source (NotFound /
no-access Forbidden). -/
theorem duplicateDocument_viewer_gate (db : DB) (u : String)
    (documentId now newId : Nat) :
    (∀ d r1, db.getDoc documentId = some d →
        resolveRole db documentId u = some r1 →
        duplicateDocument db u documentId now newId =
          .ok ({ db with
                 documents := db.documents ++ [copyOf d u now newId] },
               newId)) ∧
    (resolveRole db documentId u = none →
      duplicateDocument db u documentId now newId = .error .notFound ∨
      duplicateDocument db u documentId now newId = .error .noAccess) := by
  constructor
  · intro d r1 hdoc hres
    obtain ⟨d', hd', hok⟩ :=
      check_ok_of_resolve .viewer hres (Nat.zero_le _)
    rw [hdoc] at hd'
    injection hd' with hd'
    subst hd'
    unfold duplicateDocument
    rw [hok]
  · intro hres
    rcases check_err_of_resolve_none .viewer hres with h | h
    · exact Or.inl (by unfold duplicateDocument; rw [h])
    · exact Or.inr (by unfold duplicateDocument; rw [h])

/-- Witness for the amended C6: the owner duplicates her own document. -/
theorem duplicateDocument_viewer_gate_witness :
    duplicateDocument exDB6 "alice" 1 3 50 =
      .ok ({ exDB6 with
             documents := exDB6.documents ++ [copyOf exDoc "alice" 3 50] },
           50) :=
  (duplicateDocument_viewer_gate exDB6 "alice" 1 3 50).1 exDoc .owner
    (by decide) (by decide)

/-- C10: a soft-deleted document is invisible through `getDocument` even to
its owner; the owner instead sees it in `getDeletedDocuments`. -/
theorem getDocument_deleted_null_even_for_owner (db : DB) (d : Document)
    (documentId : Nat) (u : String)
    (hdoc : db.getDoc documentId = some d) (hdel : d.isDeleted = true)
    (hown : d.ownerId = u) :
    getDocument db (some u) documentId = none ∧
    d ∈ getDeletedDocuments db (some u) := by
  refine ⟨by simp [getDocument, hdoc, hdel], ?_⟩
  unfold getDeletedDocuments
  rw [mem_insSortBy]
  exact List.mem_filter.mpr
    ⟨List.mem_of_find?_eq_some hdoc, by simp [hown, hdel]⟩

/-- Witness for C10 at a concrete database. -/
theorem getDocument_deleted_null_even_for_owner_witness :
    getDocument exDBdel (some "alice") 1 = none ∧
    exDocDeleted ∈ getDeletedDocuments exDBdel (some "alice") :=
  getDocument_deleted_null_even_for_owner exDBdel exDocDeleted 1 "alice"
    (by decide) (by decide) (by decide)

/-- C9: on the tree `{doc:[{paragraph:[{text:"hi", marks:[bold]}]}]}` the
markdown emitter returns exactly `**hi**`, the HTML emitter without the
standalone-document shell returns exactly `<p><strong>hi</strong></p>`, and
the plain-text emitter returns exactly `hi`; each emitter is a total
function of the tree, hence deterministic. -/
theorem emitters_bold_hi :
    nodeToMarkdown boldHiTree 0 = "**hi**" ∧
    nodeToHTML boldHiTree = "<p><strong>hi</strong></p>" ∧
    nodeToText boldHiTree = "hi" := by
  refine ⟨by decide, by decide, by decide⟩

/-- C3 counterexample: on a document whose content is not parseable JSON,
`exportToMarkdown` surfaces a raw (SyntaxError) exception, not a structured
ValidationError pair, and `exportToJSON` does not fail at all — it returns
the malformed content unchanged. -/
theorem export_malformed_cx :
    exportToMarkdownRun parseTiptap exDB3 (some "alice") 1 =
      .jsException "SyntaxError: Unexpected token in JSON" ∧
    exportToJSONRun exDB3 (some "alice") 1 =
      .ok "T" "not json" "json" := by
  refine ⟨by decide, by decide⟩

/-- C3 as amended: for every behaviour of the platform `JSON.parse` and
every accessible document whose content that parse rejects, the markdown,
HTML and text exports let the raw parse exception propagate uncaught past
the handler (no try/catch converts it into a structured ValidationError),
and the JSON export performs no parse and returns the stored content
unchanged. -/
theorem export_parse_error_propagates
    (parse : String → Except String TiptapNode) (db : DB)
    (user : Option String) (documentId : Nat) (document : Document)
    (includeStyles : Option Bool) (e : String)
    (hdoc : getDocument db user documentId = some document)
    (hparse : parse document.content = .error e) :
    exportToMarkdownRun parse db user documentId = .jsException e ∧
    exportToHTMLRun parse db user documentId includeStyles = .jsException e ∧
    exportToTextRun parse db user documentId = .jsException e ∧
    exportToJSONRun db user documentId =
      .ok document.title document.content "json" ∧
    (∀ code msg, ExportOutcome.jsException e ≠ .convexError code msg) := by
  refine ⟨?_, ?_, ?_, ?_, fun code msg h => ExportOutcome.noConfusion h⟩
  · simp [exportToMarkdownRun, hdoc, tiptapToMarkdownP, hparse, Except.map]
  · simp [exportToHTMLRun, hdoc, tiptapToHTMLP, hparse, Except.map]
  · simp [exportToTextRun, hdoc, tiptapToTextP, hparse, Except.map]
  · simp [exportToJSONRun, hdoc]

/-- Witness for the amended C3 at the concrete malformed-content fixture. -/
theorem export_parse_error_propagates_witness :
    exportToMarkdownRun parseTiptap exDB3 (some "alice") 1 =
      .jsException "SyntaxError: Unexpected token in JSON" ∧
    exportToHTMLRun parseTiptap exDB3 (some "alice") 1 none =
      .jsException "SyntaxError: Unexpected token in JSON" ∧
    exportToTextRun parseTiptap exDB3 (some "alice") 1 =
      .jsException "SyntaxError: Unexpected token in JSON" ∧
    exportToJSONRun exDB3 (some "alice") 1 =
      .ok ({ exDoc with content := "not json" }).title
        ({ exDoc with content := "not json" }).content "json" ∧
    (∀ code msg,
      ExportOutcome.jsException "SyntaxError: Unexpected token in JSON" ≠
        .convexError code msg) :=
  export_parse_error_propagates parseTiptap exDB3 (some "alice") 1
    ({ exDoc with content := "not json" }) none
    "SyntaxError: Unexpected token in JSON" (by decide) rfl

theorem insertSorted_cons_of_le {le : α → α → Bool} {x y : α} {ys : List α}
    (h : le x y = true) : insertSorted le x (y :: ys) = x :: y :: ys := by
  simp [insertSorted, h]

/-- A stable sort leaves an already-sorted list unchanged. -/
theorem insSortBy_eq_self {le : α → α → Bool} :
    ∀ {l : List α}, List.Pairwise (fun a b => le a b = true) l →
      insSortBy le l = l := by
  intro l h
  induction l with
  | nil => rfl
  | cons x xs ih =>
    rcases List.pairwise_cons.mp h with ⟨hx, hxs⟩
    simp only [insSortBy]
    rw [ih hxs]
    cases xs with
    | nil => rfl
    | cons y ys => exact insertSorted_cons_of_le (hx y (List.mem_cons_self y ys))

/-- Deleting, by id, the first `k` entries of a table with distinct ids
leaves exactly the tail `l.drop k`. -/
theorem filter_not_mem_take_ids :
    ∀ (l : List Version) (k : Nat), (l.map (·.id)).Nodup →
      l.filter (fun w => !(((l.take k).map (·.id)).contains w.id)) = l.drop k := by
  intro l
  induction l with
  | nil => intro k _; simp
  | cons x xs ih =>
    intro k hnd
    rw [List.map_cons] at hnd
    rcases List.nodup_cons.mp hnd with ⟨hx, hxs⟩
    cases k with
    | zero => simp
    | succ k =>
      simp only [List.take_succ_cons, List.map_cons, List.drop_succ_cons]
      rw [List.filter_cons]
      have hxid :
          (!((x.id :: ((xs.take k).map (·.id))).contains x.id)) = false := by
        simp
      rw [hxid, if_neg Bool.false_ne_true]
      have hcong :
          xs.filter (fun w => !((x.id :: ((xs.take k).map (·.id))).contains w.id))
            = xs.filter (fun w => !(((xs.take k).map (·.id)).contains w.id)) := by
        apply List.filter_congr
        intro w hw
        have hne : w.id ≠ x.id := by
          intro hEq
          exact hx (hEq ▸ List.mem_map_of_mem (·.id) hw)
        simp [List.contains_cons, hne]
      rw [hcong, ih k hxs]

/-- One successful `createVersion` call, on a version set whose timestamps
strictly increase and whose ids are distinct, keeps the newest suffix of the
insertion history. -/
theorem createVersionStep_sorted_eq (versions : List Version) (v : Version)
    (hsorted : List.Pairwise (fun a b => a.createdAt < b.createdAt)
      (versions ++ [v]))
    (hids : (((versions ++ [v]).map (·.id)).Nodup))
    (hlen : versions.length ≤ MAX_VERSIONS) :
    createVersionStep versions v =
      (versions ++ [v]).drop (versions.length + 1 - MAX_VERSIONS) := by
  have hm : MAX_VERSIONS = 50 := rfl
  have hlenapp : (versions ++ [v]).length = versions.length + 1 := by simp
  unfold createVersionStep
  by_cases h : (versions ++ [v]).length > MAX_VERSIONS
  · rw [if_pos h]
    have hsorted' :
        List.Pairwise
          (fun a b : Version => (a.createdAt ≤ b.createdAt : Bool) = true)
          (versions ++ [v]) :=
      hsorted.imp (fun hab => by simpa using Nat.le_of_lt hab)
    rw [insSortBy_eq_self hsorted', filter_not_mem_take_ids _ _ hids, hlenapp]
  · rw [if_neg h]
    rw [hlenapp] at h
    have h0 : versions.length + 1 - MAX_VERSIONS = 0 := by omega
    rw [h0, List.drop_zero]

/-- The version set after a sequence of `createVersion` calls is the newest
suffix (at most `MAX_VERSIONS` long) of the chronological insertion
history. -/
theorem runCreateVersions_eq_drop :
    ∀ (news init : List Version),
      List.Pairwise (fun a b => a.createdAt < b.createdAt) (init ++ news) →
      ((init ++ news).map (·.id)).Nodup →
      init.length ≤ MAX_VERSIONS →
      runCreateVersions init news =
        (init ++ news).drop ((init ++ news).length - MAX_VERSIONS) := by
  intro news
  induction news with
  | nil =>
    intro init _ _ hlen
    have h0 : (init ++ []).length - MAX_VERSIONS = 0 := by
      simp only [List.append_nil]
      omega
    rw [h0, List.drop_zero, List.append_nil]
    rfl
  | cons v vs ih =>
    intro init hs hn hlen
    have hsub : (init ++ [v]).Sublist (init ++ v :: vs) :=
      List.Sublist.append_left ((List.nil_sublist vs).cons₂ v) init
    have hstep :=
      createVersionStep_sorted_eq init v
        (hs.sublist hsub) (hn.sublist (hsub.map (·.id))) hlen
    have hrun :
        runCreateVersions init (v :: vs)
          = runCreateVersions (createVersionStep init v) vs := rfl
    set d := init.length + 1 - MAX_VERSIONS with hd
    have hdle : d ≤ (init ++ [v]).length := by
      simp only [List.length_append, List.length_cons, List.length_nil]
      omega
    have hinit' :
        createVersionStep init v ++ vs = (init ++ v :: vs).drop d := by
      rw [hstep, ← List.drop_append_of_le_length hdle]
      congr 1
      simp
    have hsubdrop : ((init ++ v :: vs).drop d).Sublist (init ++ v :: vs) :=
      List.drop_sublist d _
    have hs' :
        List.Pairwise (fun a b => a.createdAt < b.createdAt)
          (createVersionStep init v ++ vs) := by
      rw [hinit']
      exact hs.sublist hsubdrop
    have hn' : ((createVersionStep init v ++ vs).map (·.id)).Nodup := by
      rw [hinit']
      exact hn.sublist (hsubdrop.map (·.id))
    have hlen' : (createVersionStep init v).length ≤ MAX_VERSIONS := by
      rw [hstep, List.length_drop]
      simp only [List.length_append, List.length_cons, List.length_nil]
      omega
    have := ih (createVersionStep init v) hs' hn' hlen'
    rw [hrun, this, hinit', List.drop_drop]
    congr 1
    simp only [List.length_drop, List.length_append, List.length_cons]
    omega

/-- C2: after any finite sequence of `createVersion` calls on one document
(with strictly increasing creation timestamps and distinct row ids), starting
from a version set of at most 50 rows, the stored count never exceeds
`MAX_VERSIONS` (50) and the retained rows are exactly the newest suffix of
the chronological insertion history — the most recent (at most) 50 by
creation time, the oldest surplus having been evicted first. -/
theorem createVersion_cap_and_recency (init news : List Version)
    (hs : List.Pairwise (fun a b => a.createdAt < b.createdAt) (init ++ news))
    (hn : ((init ++ news).map (·.id)).Nodup)
    (hlen : init.length ≤ MAX_VERSIONS) :
    (runCreateVersions init news).length ≤ MAX_VERSIONS ∧
    runCreateVersions init news =
      (init ++ news).drop ((init ++ news).length - MAX_VERSIONS) := by
  have heq := runCreateVersions_eq_drop news init hs hn hlen
  refine ⟨?_, heq⟩
  rw [heq, List.length_drop]
  omega

/-- C7: for every version `v` of a live document and every caller who is the
owner or holds a non-viewer grant, `restoreVersion` succeeds; afterwards the
document's content and title equal `v`'s, its update timestamp is set to the
call time, and a new backup version exists for that document whose content
and title equal the document's pre-restore content and title. -/
theorem restoreVersion_spec (db : DB) (u : String)
    (versionId now backupId : Nat) (version : Version) (document : Document)
    (hver : db.getVersion versionId = some version)
    (hdoc : db.getDoc version.documentId = some document)
    (hdel : document.isDeleted = false)
    (hrole : document.ownerId = u ∨
      ∃ c, db.getCollab version.documentId u = some c ∧
        c.role ≠ Role.viewer) :
    ∃ db', restoreVersion db u versionId now backupId = .ok db' ∧
      (∃ d', db'.getDoc version.documentId = some d' ∧
        d'.content = version.content ∧ d'.title = version.title ∧
        d'.updatedAt = now) ∧
      (∃ b, b ∈ db'.versions ∧ b.id = backupId ∧
        b.documentId = version.documentId ∧
        b.content = document.content ∧ b.title = document.title ∧
        b.createdAt = now) := by
  have hfind :
      (db.documents.map (fun d =>
          if d.id == version.documentId then
            { d with
               content := version.content,
               title := version.title,
               updatedAt := now }
          else d)).find? (fun d => d.id == version.documentId)
        = some ({ document with
                   content := version.content,
                   title := version.title,
                   updatedAt := now }) := by
    rw [find?_map_patch db.documents version.documentId
        (fun d => { d with
                     content := version.content,
                     title := version.title,
                     updatedAt := now })
        (fun d => rfl)]
    rw [show db.documents.find? (fun d => d.id == version.documentId)
          = some document from hdoc, Option.map_some']
  simp only [restoreVersion, hver, versionsCheckDocumentAccess, hdoc, hdel,
    Bool.false_eq_true, if_false]
  by_cases hown : (document.ownerId == u) = true
  · simp only [hown, if_true]
    exact ⟨_, rfl, ⟨_, hfind, rfl, rfl, rfl⟩,
      ⟨_, List.mem_append_right _ (List.mem_singleton_self _),
        rfl, rfl, rfl, rfl, rfl⟩⟩
  · rcases hrole with hrole | ⟨c, hc, hcrole⟩
    · exact absurd (by simp [hrole]) hown
    · have hallowed : (!(c.role == Role.viewer)) = true := by
        simp [hcrole]
      have hown' : (document.ownerId == u) = false := by
        simpa using hown
      simp only [hown', Bool.false_eq_true, if_false, hc, hallowed, if_true]
      exact ⟨_, rfl, ⟨_, hfind, rfl, rfl, rfl⟩,
        ⟨_, List.mem_append_right _ (List.mem_singleton_self _),
          rfl, rfl, rfl, rfl, rfl⟩⟩

/-- Witness for C7: bob, an editor collaborator, restores alice's document to
the old snapshot. -/
theorem restoreVersion_spec_witness :
    ∃ db', restoreVersion exDB7 "bob" 10 20 11 = .ok db' ∧
      (∃ d', db'.getDoc exVer.documentId = some d' ∧
        d'.content = exVer.content ∧ d'.title = exVer.title ∧
        d'.updatedAt = 20) ∧
      (∃ b, b ∈ db'.versions ∧ b.id = 11 ∧
        b.documentId = exVer.documentId ∧
        b.content = exDoc.content ∧ b.title = exDoc.title ∧
        b.createdAt = 20) :=
  restoreVersion_spec exDB7 "bob" 10 20 11 exVer exDoc (by decide) (by decide)
    (by decide)
    (Or.inr ⟨{ id := 2, documentId := 1, userId := "bob", role := .editor,
               addedAt := 0 }, by decide, by decide⟩)

theorem find?_append_of_left_none {p : α → Bool} {l₁ l₂ : List α}
    (h : ∀ a ∈ l₁, p a = false) :
    (l₁ ++ l₂).find? p = l₂.find? p := by
  induction l₁ with
  | nil => rfl
  | cons a l ih =>
    rw [List.cons_append, List.find?_cons, h a (List.mem_cons_self a l)]
    exact ih (fun b hb => h b (List.mem_cons_of_mem a hb))

theorem eq_of_mem_of_length_le_one {l : List α} {a b : α}
    (h : l.length ≤ 1) (ha : a ∈ l) (hb : b ∈ l) : a = b := by
  cases l with
  | nil => cases ha
  | cons x xs =>
    cases xs with
    | nil =>
      rw [List.mem_singleton.mp ha, List.mem_singleton.mp hb]
    | cons y ys => simp at h

/-- After the ownership patch of `transferOwnership`, `checkAccess` resolves
the new owner to role `owner` with `isOwner = true` (for a live document). -/
theorem checkAccess_after_patch (db : DB) (documentId : Nat)
    (newOwnerId : String) (collabs : List Collaborator) (now : Nat)
    (d : Document)
    (hdoc : db.getDoc documentId = some d)
    (hlive : d.isDeleted = false) :
    checkAccess
        { db with
          collaborators := collabs,
          documents := db.documents.map (fun x =>
            if x.id == documentId then
              { x with ownerId := newOwnerId, updatedAt := now }
            else x) }
        (some newOwnerId) documentId
      = .granted .owner true := by
  unfold checkAccess
  have hgd :
      DB.getDoc
          { db with
            collaborators := collabs,
            documents := db.documents.map (fun x =>
              if x.id == documentId then
                { x with ownerId := newOwnerId, updatedAt := now }
              else x) }
          documentId
        = some ({ d with ownerId := newOwnerId, updatedAt := now }) := by
    show (db.documents.map (fun x =>
        if x.id == documentId then
          { x with ownerId := newOwnerId, updatedAt := now }
        else x)).find? (fun x => x.id == documentId)
      = some ({ d with ownerId := newOwnerId, updatedAt := now })
    rw [find?_map_patch db.documents documentId
        (fun x => { x with ownerId := newOwnerId, updatedAt := now })
        (fun x => rfl),
      show db.documents.find? (fun x => x.id == documentId) = some d from hdoc,
      Option.map_some']
  rw [hgd]
  simp [hlive]

/-- C8 counterexample: the claim quantifies over every owned document, but
`transferOwnership` does not check the soft-delete flag while `checkAccess`
does: transferring alice's soft-deleted document to bob succeeds, yet
resolving bob's access afterwards yields no access, not owner. -/
theorem transferOwnership_deleted_doc_cx :
    transferOwnership exDBdel "alice" 1 "bob" 9 5 = .ok exDB8cx ∧
    checkAccess exDB8cx (some "bob") 1 = .denied := by
  decide

/-- C8 as amended: for every live (non-soft-deleted) document owned by `u`
where the owner holds no collaborator grant (the documented invariant), and
any distinct user `newOwner` with at most one grant on the document:
`transferOwnership` succeeds; afterwards `checkAccess` resolves `newOwner`
to role owner with `isOwner = true`, `u` holds an `editor` grant, and any
grant `newOwner` previously held is gone; a self-transfer by `u` is rejected
as a validation error.  (For a soft-deleted document the transfer still
succeeds but the new owner resolves to no access.) -/
theorem transferOwnership_spec (db : DB) (u newOwner : String)
    (documentId now grantId : Nat) (d : Document)
    (hdoc : db.getDoc documentId = some d)
    (hown : d.ownerId = u)
    (hlive : d.isDeleted = false)
    (hne : newOwner ≠ u)
    (hnogrant : ∀ c ∈ db.collaborators,
      ¬(c.documentId = documentId ∧ c.userId = u))
    (huniq : (db.collaborators.filter
        (fun c => c.documentId == documentId && c.userId == newOwner)).length
          ≤ 1) :
    (∃ db', transferOwnership db u documentId newOwner now grantId = .ok db' ∧
      checkAccess db' (some newOwner) documentId = .granted .owner true ∧
      (∃ g, db'.getCollab documentId u = some g ∧ g.role = .editor) ∧
      db'.getCollab documentId newOwner = none) ∧
    transferOwnership db u documentId u now grantId = .error .selfTransfer := by
  have hq : (d.ownerId == u) = true := by simp [hown]
  have hne' : (newOwner == u) = false := by simp [hne]
  have hpredu : ∀ c ∈ db.collaborators,
      ((c.documentId == documentId && c.userId == u)) = false := by
    intro c hc
    have hng := hnogrant c hc
    by_cases h1 : c.documentId = documentId
    · have h2 : c.userId ≠ u := fun h2 => hng ⟨h1, h2⟩
      simp [h2]
    · simp [h1]
  refine ⟨?_, by unfold transferOwnership; rw [hdoc]; simp [hq]⟩
  unfold transferOwnership
  rw [hdoc]
  simp only [hq, Bool.not_true, Bool.false_eq_true, if_false, hne', if_true]
  cases hex : db.getCollab documentId newOwner with
  | none =>
    have hexfind : db.collaborators.find?
        (fun c => c.documentId == documentId && c.userId == newOwner)
          = none := hex
    have hnomatch : ∀ c ∈ db.collaborators,
        ((c.documentId == documentId && c.userId == newOwner)) = false := by
      intro c hc
      have := List.find?_eq_none.mp hexfind c hc
      simpa using this
    refine ⟨_, rfl, checkAccess_after_patch db documentId newOwner _ now d
      hdoc hlive,
      ⟨{ id := grantId, documentId := documentId, userId := u,
         role := .editor, addedAt := now }, ?_, rfl⟩, ?_⟩
    · show (db.collaborators ++
          [({ id := grantId, documentId := documentId, userId := u,
              role := .editor, addedAt := now } : Collaborator)]).find?
          (fun c => c.documentId == documentId && c.userId == u) = _
      rw [find?_append_of_left_none hpredu, List.find?_cons]
      simp
    · show (db.collaborators ++
          [({ id := grantId, documentId := documentId, userId := u,
              role := .editor, addedAt := now } : Collaborator)]).find?
          (fun c => c.documentId == documentId && c.userId == newOwner) = none
      rw [find?_append_of_left_none hnomatch, List.find?_cons]
      have hun : (u == newOwner) = false := by
        simp [Ne.symm hne]
      simp [hun]
  | some existing =>
    have hexfind : db.collaborators.find?
        (fun c => c.documentId == documentId && c.userId == newOwner)
          = some existing := hex
    have hexmem : existing ∈ db.collaborators :=
      List.mem_of_find?_eq_some hexfind
    have hexpred := List.find?_some hexfind
    have hnomatch : ∀ c ∈ db.collaborators.filter
          (fun c => !(c.id == existing.id)),
        ((c.documentId == documentId && c.userId == newOwner)) = false := by
      intro c hc
      rcases List.mem_filter.mp hc with ⟨hcmem, hcid⟩
      by_contra hcp
      have hcp' :
          (c.documentId == documentId && c.userId == newOwner) = true := by
        revert hcp
        cases (c.documentId == documentId && c.userId == newOwner) <;> simp
      have hcin : c ∈ db.collaborators.filter
          (fun c => c.documentId == documentId && c.userId == newOwner) :=
        List.mem_filter.mpr ⟨hcmem, hcp'⟩
      have hexin : existing ∈ db.collaborators.filter
          (fun c => c.documentId == documentId && c.userId == newOwner) :=
        List.mem_filter.mpr ⟨hexmem, hexpred⟩
      have hceq := eq_of_mem_of_length_le_one huniq hcin hexin
      rw [hceq] at hcid
      simp at hcid
    have hpredu' : ∀ c ∈ db.collaborators.filter
          (fun c => !(c.id == existing.id)),
        ((c.documentId == documentId && c.userId == u)) = false := by
      intro c hc
      exact hpredu c (List.mem_filter.mp hc).1
    refine ⟨_, rfl, checkAccess_after_patch db documentId newOwner _ now d
      hdoc hlive,
      ⟨{ id := grantId, documentId := documentId, userId := u,
         role := .editor, addedAt := now }, ?_, rfl⟩, ?_⟩
    · show (db.collaborators.filter (fun c => !(c.id == existing.id)) ++
          [({ id := grantId, documentId := documentId, userId := u,
              role := .editor, addedAt := now } : Collaborator)]).find?
          (fun c => c.documentId == documentId && c.userId == u) = _
      rw [find?_append_of_left_none hpredu', List.find?_cons]
      simp
    · show (db.collaborators.filter (fun c => !(c.id == existing.id)) ++
          [({ id := grantId, documentId := documentId, userId := u,
              role := .editor, addedAt := now } : Collaborator)]).find?
          (fun c => c.documentId == documentId && c.userId == newOwner) = none
      rw [find?_append_of_left_none hnomatch, List.find?_cons]
      have hun : (u == newOwner) = false := by
        simp [Ne.symm hne]
      simp [hun]

/-- Witness for the amended C8: alice transfers her live document to bob,
her editor collaborator. -/
theorem transferOwnership_spec_witness :
    ((∃ db', transferOwnership exDB6 "alice" 1 "bob" 9 5 = .ok db' ∧
      checkAccess db' (some "bob") 1 = .granted .owner true ∧
      (∃ g, db'.getCollab 1 "alice" = some g ∧ g.role = .editor) ∧
      db'.getCollab 1 "bob" = none) ∧
    transferOwnership exDB6 "alice" 1 "alice" 9 5 = .error .selfTransfer) :=
  transferOwnership_spec exDB6 "alice" "bob" 1 9 5 exDoc (by decide)
    (by decide) (by decide) (by decide) (by decide) (by decide)

/-- Witness for C2: from an empty history, 51 snapshot calls retain exactly
the newest 50. -/
theorem createVersion_cap_and_recency_witness :
    (runCreateVersions [] wNews).length ≤ MAX_VERSIONS ∧
    runCreateVersions [] wNews =
      (([] : List Version) ++ wNews).drop
        ((([] : List Version) ++ wNews).length - MAX_VERSIONS) :=
  createVersion_cap_and_recency [] wNews (by decide) (by decide) (by decide)

end Writer
